import Mathlib

/-!
Verification of the statistical engine of the TraceBack Analytics repository.

The numeric core lives in `src/lib/analysis.ts` (linear regression,
Box-Muller sample synthesis, Student's t-test with a continued-fraction
incomplete-beta evaluator), orchestrated by the server actions in the
repository (`runAnalysis`, `performStatisticalTest`) and validated by the
client-side forward test (`calculateSD` and the concentration recovery).

JavaScript numbers are modelled by the type `F` below: a finite value
(idealised as an exact real number), positive or negative infinity, or NaN.
Signed zero is collapsed to the single real zero; a zero denominator is
treated with the sign conventions of IEEE +0, which is the only way a zero
denominator arises in the modelled code paths.  Float rounding is idealised
away: arithmetic on finite values is exact real arithmetic.
-/

open scoped Classical

noncomputable section

/-- Model of a JavaScript number: finite (exact real), `inf` (+Infinity),
`ninf` (-Infinity) or `nan` (NaN). -/
inductive F where
  | fin (x : ℝ)
  | inf
  | ninf
  | nan
deriving Inhabited

namespace F

/-- JavaScript addition `x + y` on numbers. -/
def fadd : F → F → F
  | nan, _ => nan
  | _, nan => nan
  | fin a, fin b => fin (a + b)
  | fin _, inf => inf
  | fin _, ninf => ninf
  | inf, fin _ => inf
  | inf, inf => inf
  | inf, ninf => nan
  | ninf, fin _ => ninf
  | ninf, inf => nan
  | ninf, ninf => ninf

/-- JavaScript subtraction `x - y` on numbers. -/
def fsub : F → F → F
  | nan, _ => nan
  | _, nan => nan
  | fin a, fin b => fin (a - b)
  | fin _, inf => ninf
  | fin _, ninf => inf
  | inf, fin _ => inf
  | ninf, fin _ => ninf
  | inf, inf => nan
  | inf, ninf => inf
  | ninf, inf => ninf
  | ninf, ninf => nan

/-- JavaScript unary negation `-x`. -/
def fneg : F → F
  | fin a => fin (-a)
  | inf => ninf
  | ninf => inf
  | nan => nan

/-- JavaScript multiplication `x * y`; `0 * Infinity` is NaN. -/
def fmul : F → F → F
  | nan, _ => nan
  | _, nan => nan
  | fin a, fin b => fin (a * b)
  | fin a, inf => if 0 < a then inf else if a < 0 then ninf else nan
  | fin a, ninf => if 0 < a then ninf else if a < 0 then inf else nan
  | inf, fin b => if 0 < b then inf else if b < 0 then ninf else nan
  | ninf, fin b => if 0 < b then ninf else if b < 0 then inf else nan
  | inf, inf => inf
  | inf, ninf => ninf
  | ninf, inf => ninf
  | ninf, ninf => inf

/-- JavaScript division `x / y`; a zero denominator behaves as IEEE +0
(`1/0 = Infinity`, `-1/0 = -Infinity`, `0/0 = NaN`). -/
def fdiv : F → F → F
  | nan, _ => nan
  | _, nan => nan
  | fin a, fin b =>
      if b = 0 then (if 0 < a then inf else if a < 0 then ninf else nan)
      else fin (a / b)
  | fin _, inf => fin 0
  | fin _, ninf => fin 0
  | inf, fin b => if 0 ≤ b then inf else ninf
  | ninf, fin b => if 0 ≤ b then ninf else inf
  | inf, inf => nan
  | inf, ninf => nan
  | ninf, inf => nan
  | ninf, ninf => nan

/-- JavaScript `Math.abs`. -/
def fabs : F → F
  | fin a => fin |a|
  | inf => inf
  | ninf => inf
  | nan => nan

/-- JavaScript strict comparison `x < y`; any comparison with NaN is false. -/
def flt : F → F → Prop
  | nan, _ => False
  | _, nan => False
  | fin a, fin b => a < b
  | fin _, inf => True
  | fin _, ninf => False
  | inf, _ => False
  | ninf, ninf => False
  | ninf, _ => True

/-- JavaScript comparison `x <= y`; any comparison with NaN is false. -/
def fle : F → F → Prop
  | nan, _ => False
  | _, nan => False
  | fin a, fin b => a ≤ b
  | fin _, inf => True
  | fin _, ninf => False
  | inf, inf => True
  | inf, _ => False
  | ninf, _ => True

/-- JavaScript comparison `x > y`, i.e. `y < x`. -/
def fgt (x y : F) : Prop := flt y x

/-- JavaScript `Math.sqrt`; NaN on negative input. -/
def jsSqrt : F → F
  | fin a => if a < 0 then nan else fin (Real.sqrt a)
  | inf => inf
  | ninf => nan
  | nan => nan

/-- JavaScript `Math.log` (natural logarithm); `log 0 = -Infinity`, NaN on
negative input. -/
def jsLog : F → F
  | fin a => if a < 0 then nan else if a = 0 then ninf else fin (Real.log a)
  | inf => inf
  | ninf => nan
  | nan => nan

/-- JavaScript `Math.exp`. -/
def jsExp : F → F
  | fin a => fin (Real.exp a)
  | inf => inf
  | ninf => fin 0
  | nan => nan

/-- JavaScript `Math.cos`; NaN on infinite or NaN input. -/
def jsCos : F → F
  | fin a => fin (Real.cos a)
  | _ => nan

/-- JavaScript `Math.pow (x, 2)`, which squares its argument (NaN and
infinities behave as under multiplication by itself). -/
def jsPow2 (x : F) : F := fmul x x

/-- JavaScript `Math.PI`, idealised as the exact real pi. -/
def jsPI : F := fin Real.pi

@[simp] theorem fadd_fin (a b : ℝ) : fadd (fin a) (fin b) = fin (a + b) := rfl

@[simp] theorem fsub_fin (a b : ℝ) : fsub (fin a) (fin b) = fin (a - b) := rfl

@[simp] theorem fmul_fin (a b : ℝ) : fmul (fin a) (fin b) = fin (a * b) := rfl

@[simp] theorem fneg_fin (a : ℝ) : fneg (fin a) = fin (-a) := rfl

@[simp] theorem fabs_fin (a : ℝ) : fabs (fin a) = fin |a| := rfl

@[simp] theorem fdiv_fin (a b : ℝ) (hb : b ≠ 0) :
    fdiv (fin a) (fin b) = fin (a / b) := by
  simp [fdiv, hb]

@[simp] theorem fdiv_zero_den_pos (a : ℝ) (ha : 0 < a) :
    fdiv (fin a) (fin 0) = inf := by
  simp [fdiv, ha]

@[simp] theorem fdiv_zero_den_neg (a : ℝ) (ha : a < 0) :
    fdiv (fin a) (fin 0) = ninf := by
  simp [fdiv, ha, asymm ha]

@[simp] theorem fdiv_zero_zero : fdiv (fin 0) (fin 0) = nan := by
  simp [fdiv]

@[simp] theorem fadd_fin_inf (a : ℝ) : fadd (fin a) inf = inf := rfl

@[simp] theorem fdiv_fin_inf (a : ℝ) : fdiv (fin a) inf = fin 0 := rfl

@[simp] theorem fmul_inf_inf : fmul inf inf = inf := rfl

@[simp] theorem fabs_ninf : fabs ninf = inf := rfl

@[simp] theorem fabs_nan : fabs nan = nan := rfl

@[simp] theorem fabs_inf : fabs inf = inf := rfl

@[simp] theorem flt_fin_iff (a b : ℝ) : flt (fin a) (fin b) ↔ a < b := Iff.rfl

@[simp] theorem fle_fin_iff (a b : ℝ) : fle (fin a) (fin b) ↔ a ≤ b := Iff.rfl

@[simp] theorem flt_nan_left (x : F) : ¬ flt nan x := by
  cases x <;> exact not_false

@[simp] theorem flt_nan_right (x : F) : ¬ flt x nan := by
  cases x <;> exact not_false

@[simp] theorem fle_nan_left (x : F) : ¬ fle nan x := by
  cases x <;> exact not_false

@[simp] theorem fle_nan_right (x : F) : ¬ fle x nan := by
  cases x <;> exact not_false

@[simp] theorem fadd_nan_left (x : F) : fadd nan x = nan := by
  cases x <;> rfl

@[simp] theorem fadd_nan_right (x : F) : fadd x nan = nan := by
  cases x <;> rfl

@[simp] theorem fsub_nan_left (x : F) : fsub nan x = nan := by
  cases x <;> rfl

@[simp] theorem fsub_nan_right (x : F) : fsub x nan = nan := by
  cases x <;> rfl

@[simp] theorem fmul_nan_left (x : F) : fmul nan x = nan := by
  cases x <;> rfl

@[simp] theorem fmul_nan_right (x : F) : fmul x nan = nan := by
  cases x <;> rfl

@[simp] theorem fdiv_nan_left (x : F) : fdiv nan x = nan := by
  cases x <;> rfl

@[simp] theorem fdiv_nan_right (x : F) : fdiv x nan = nan := by
  cases x <;> rfl

@[simp] theorem jsSqrt_fin_nonneg (a : ℝ) (ha : 0 ≤ a) :
    jsSqrt (fin a) = fin (Real.sqrt a) := by
  simp [jsSqrt, not_lt.mpr ha]

@[simp] theorem jsLog_fin_pos (a : ℝ) (ha : 0 < a) :
    jsLog (fin a) = fin (Real.log a) := by
  simp [jsLog, not_lt.mpr ha.le, ha.ne']

@[simp] theorem jsLog_nan : jsLog nan = nan := rfl

@[simp] theorem jsExp_fin (a : ℝ) : jsExp (fin a) = fin (Real.exp a) := rfl

@[simp] theorem jsExp_nan : jsExp nan = nan := rfl

@[simp] theorem jsCos_fin (a : ℝ) : jsCos (fin a) = fin (Real.cos a) := rfl

end F

/-- Result record of both linear-regression implementations: slope `m`,
intercept `c` and R-squared.  The `part_005` variant additionally formats a
display string `equation`, a presentation-only field that is omitted here
(the compared outputs are `m`, `c`, `rSquare`). -/
structure RegressionResult where
  m : F
  c : F
  rSquare : F

/-- Accumulator of the five running sums computed by the (textually
identical) summation loop of both regression implementations. -/
structure RegSums where
  sumX : F
  sumY : F
  sumXY : F
  sumX2 : F
  sumY2 : F

/-- The summation loop shared verbatim by `calculateLinearRegression` in
`src/lib/analysis.ts` and in `part_005`: for each point accumulate
`sumX += x; sumY += y; sumXY += x*y; sumX2 += x*x; sumY2 += y*y`. -/
def regressionSums (points : List (F × F)) : RegSums :=
  points.foldl
    (fun s p =>
      { sumX := F.fadd s.sumX p.1
        sumY := F.fadd s.sumY p.2
        sumXY := F.fadd s.sumXY (F.fmul p.1 p.2)
        sumX2 := F.fadd s.sumX2 (F.fmul p.1 p.1)
        sumY2 := F.fadd s.sumY2 (F.fmul p.2 p.2) })
    ⟨F.fin 0, F.fin 0, F.fin 0, F.fin 0, F.fin 0⟩

/-- The least-squares denominator `n * sumX2 - sumX * sumX` computed by both
regression implementations (used to state their shared degeneracy check). -/
def regDenominator (points : List (F × F)) : F :=
  let s := regressionSums points
  F.fsub (F.fmul (F.fin points.length) s.sumX2) (F.fmul s.sumX s.sumX)

namespace AnalysisLib

/-- Constant `EPS = 3.0e-7` of `betacf` in `src/lib/analysis.ts`. -/
def EPS : F := F.fin (3e-7)

/-- Constant `FPMIN = 1.0e-30` of `betacf` in `src/lib/analysis.ts`. -/
def FPMIN : F := F.fin (1e-30)

/-- The `FPMIN` floor of `betacf`: `if (Math.abs(v) < FPMIN) v = FPMIN`. -/
def fpminFloor (v : F) : F := if F.flt (F.fabs v) FPMIN then FPMIN else v

/-- One iteration of the `for (m = 1; m <= MAXIT; m++)` loop body of
`betacf` in `src/lib/analysis.ts` (modified Lentz continued fraction): the
even and odd continued-fraction steps with the `FPMIN` floors, multiplying
`h` by `d*c` and by `del`.  Returns `(del, c, d, h)` after the iteration;
the caller checks `|del - 1| < EPS` for early exit. -/
def cfIter (x a b qab qap qam : F) (m : ℕ) (c d h : F) : F × F × F × F :=
  let fm : F := F.fin (m : ℝ)
  let m2 : F := F.fin (2 * (m : ℝ))
  let aa1 := F.fdiv (F.fmul (F.fmul fm (F.fsub b fm)) x)
    (F.fmul (F.fadd qam m2) (F.fadd a m2))
  let d2 := fpminFloor (F.fadd (F.fin 1) (F.fmul aa1 d))
  let c2 := fpminFloor (F.fadd (F.fin 1) (F.fdiv aa1 c))
  let d3 := F.fdiv (F.fin 1) d2
  let h1 := F.fmul h (F.fmul d3 c2)
  let aa2 := F.fdiv (F.fmul (F.fmul (F.fneg (F.fadd a fm)) (F.fadd qab fm)) x)
    (F.fmul (F.fadd a m2) (F.fadd qap m2))
  let d5 := fpminFloor (F.fadd (F.fin 1) (F.fmul aa2 d3))
  let c4 := fpminFloor (F.fadd (F.fin 1) (F.fdiv aa2 c2))
  let d6 := F.fdiv (F.fin 1) d5
  let del := F.fmul d6 c4
  let h2 := F.fmul h1 del
  (del, c4, d6, h2)

/-- One-iteration-per-fuel model of the `betacf` loop: run `cfIter`, exit
with `h` when `|del - 1| < EPS`, otherwise continue with the updated
`c, d, h` until the fuel (`MAXIT` at the initial call) is spent. -/
def betacfGo (x a b qab qap qam : F) : ℕ → ℕ → F → F → F → F
  | _, 0, _, _, h => h
  | m, fuel+1, c, d, h =>
    let r := cfIter x a b qab qap qam m c d h
    if F.flt (F.fabs (F.fsub r.1 (F.fin 1))) EPS then r.2.2.2
    else betacfGo x a b qab qap qam (m+1) fuel r.2.1 r.2.2.1 r.2.2.2

/-- The continued-fraction evaluator `betacf(x, a, b)` of
`src/lib/analysis.ts`: initialises `qab, qap, qam, c = 1,
d = 1 - qab*x/qap` (floored by `FPMIN`), `d = 1/d`, `h = d`, then runs the
loop for at most `MAXIT = 100` iterations. -/
def betacf (x a b : F) : F :=
  let qab := F.fadd a b
  let qap := F.fadd a (F.fin 1)
  let qam := F.fsub a (F.fin 1)
  let c := F.fin 1
  let d0 := F.fsub (F.fin 1) (F.fdiv (F.fmul qab x) qap)
  let d1 := if F.flt (F.fabs d0) FPMIN then FPMIN else d0
  let d2 := F.fdiv (F.fin 1) d1
  betacfGo x a b qab qap qam 1 100 c d2 d2

/-- The `betai(x, a, b)` helper of `src/lib/analysis.ts`: returns `0` for
`x < 0` or `x > 1`; computes `bt = 0` at the endpoints and
`bt = exp(a*log x + b*log(1-x))` otherwise (note: the source omits the
`gammln` normalisation of the textbook routine); then branches on
`x < (a+1)/(a+b+2)` between `bt*betacf(x,a,b)/a` and
`1 - bt*betacf(1-x,b,a)/b`. -/
def betai (x a b : F) : F :=
  if F.flt x (F.fin 0) ∨ F.fgt x (F.fin 1) then F.fin 0
  else
    let bt := if x = F.fin 0 ∨ x = F.fin 1 then F.fin 0
      else F.jsExp (F.fadd (F.fmul a (F.jsLog x))
        (F.fmul b (F.jsLog (F.fsub (F.fin 1) x))))
    if F.flt x (F.fdiv (F.fadd a (F.fin 1)) (F.fadd (F.fadd a b) (F.fin 2))) then
      F.fdiv (F.fmul bt (betacf x a b)) a
    else
      F.fsub (F.fin 1) (F.fdiv (F.fmul bt (betacf (F.fsub (F.fin 1) x) b a)) b)

/-- The `tDistr(df, t)` helper of `src/lib/analysis.ts`:
`a = df/2`, `x = df/(df + t*t)`, result `1.0 - betai(x, a, 0.5)`. -/
def tDistr (df t : F) : F :=
  let a := F.fdiv df (F.fin 2)
  let x := F.fdiv df (F.fadd df (F.fmul t t))
  F.fsub (F.fin 1) (betai x a (F.fin (1/2)))

/-- The `GroupStats` type of `src/lib/analysis.ts`:
`{ mean: number; sd: number; n: number }`. -/
structure GroupStats where
  mean : F
  sd : F
  n : F

/-- `studentsTTest(group1, group2)` of `src/lib/analysis.ts`: returns NaN
when either `n <= 1`; otherwise computes the pooled standard deviation, the
t-statistic (dividing by `pooledStdDev * sqrt(1/n1 + 1/n2)`), and
`tDistr(n1+n2-2, |t|)`.  The function is total: it never throws. -/
def studentsTTest (group1 group2 : GroupStats) : F :=
  if F.fle group1.n (F.fin 1) ∨ F.fle group2.n (F.fin 1) then F.nan
  else
    let pooledStdDev := F.jsSqrt (F.fdiv
      (F.fadd
        (F.fmul (F.fmul (F.fsub group1.n (F.fin 1)) group1.sd) group1.sd)
        (F.fmul (F.fmul (F.fsub group2.n (F.fin 1)) group2.sd) group2.sd))
      (F.fsub (F.fadd group1.n group2.n) (F.fin 2)))
    let tStatistic := F.fdiv (F.fsub group1.mean group2.mean)
      (F.fmul pooledStdDev
        (F.jsSqrt (F.fadd (F.fdiv (F.fin 1) group1.n) (F.fdiv (F.fin 1) group2.n))))
    let degreesFreedom := F.fsub (F.fadd group1.n group2.n) (F.fin 2)
    tDistr degreesFreedom (F.fabs tStatistic)

/-- `calculateLinearRegression(points)` of `src/lib/analysis.ts`: the
NaN-sentinel policy.  Fewer than 2 points, or a zero least-squares
denominator, yield `{m: NaN, c: NaN, rSquare: 0}`; a zero `rDenominator`
yields `rSquare = 1`.  The function is total: it never throws. -/
def calculateLinearRegression (points : List (F × F)) : RegressionResult :=
  if points.length < 2 then ⟨F.nan, F.nan, F.fin 0⟩
  else
    let n : F := F.fin points.length
    let s := regressionSums points
    let denominator := F.fsub (F.fmul n s.sumX2) (F.fmul s.sumX s.sumX)
    if denominator = F.fin 0 then ⟨F.nan, F.nan, F.fin 0⟩
    else
      let m := F.fdiv (F.fsub (F.fmul n s.sumXY) (F.fmul s.sumX s.sumY)) denominator
      let c := F.fdiv (F.fsub s.sumY (F.fmul m s.sumX)) n
      let rNumerator := F.fsub (F.fmul n s.sumXY) (F.fmul s.sumX s.sumY)
      let rDenominator := F.jsSqrt (F.fmul
        (F.fsub (F.fmul n s.sumX2) (F.fmul s.sumX s.sumX))
        (F.fsub (F.fmul n s.sumY2) (F.fmul s.sumY s.sumY)))
      if rDenominator = F.fin 0 then ⟨m, c, F.fin 1⟩
      else
        let r := F.fdiv rNumerator rDenominator
        ⟨m, c, F.fmul r r⟩

/-- `generateNormalDistribution(mean, stdDev, count)` of
`src/lib/analysis.ts` (Box-Muller).  The ambient `Math.random()` source and
the two rejection loops `while (u === 0) u = Math.random()` are modelled by
an injected stream `u` supplying, for each iteration, the pair `(u1, u2)`
that the rejection loops produce; the loops' postcondition (each draw lies
in the open interval `(0,1)`) is assumed where theorems need it. -/
def generateNormalDistribution (mean stdDev : F) (count : ℕ) (u : ℕ → F × F) :
    List F :=
  (List.range count).map (fun i =>
    let u1 := (u i).1
    let u2 := (u i).2
    let z0 := F.fmul (F.jsSqrt (F.fmul (F.fin (-2)) (F.jsLog u1)))
      (F.jsCos (F.fmul (F.fmul (F.fin 2) F.jsPI) u2))
    F.fadd (F.fmul z0 stdDev) mean)

end AnalysisLib

namespace Part005

/-- `calculateLinearRegression(points)` of `part_005`: the fallback policy.
Fewer than 2 points yield `{m: 0, c: 0, rSquare: 0}`; a zero least-squares
denominator yields the horizontal line `{m: 0, c: avgY, rSquare: 0}`; the
non-degenerate arithmetic is identical to the `analysis.ts` version.  The
presentation-only `equation` string of the source record is omitted. -/
def calculateLinearRegression (points : List (F × F)) : RegressionResult :=
  if points.length < 2 then ⟨F.fin 0, F.fin 0, F.fin 0⟩
  else
    let n : F := F.fin points.length
    let s := regressionSums points
    let denominator := F.fsub (F.fmul n s.sumX2) (F.fmul s.sumX s.sumX)
    if denominator = F.fin 0 then
      let avgY := F.fdiv s.sumY n
      ⟨F.fin 0, avgY, F.fin 0⟩
    else
      let m := F.fdiv (F.fsub (F.fmul n s.sumXY) (F.fmul s.sumX s.sumY)) denominator
      let c := F.fdiv (F.fsub s.sumY (F.fmul m s.sumX)) n
      let rNumerator := F.fsub (F.fmul n s.sumXY) (F.fmul s.sumX s.sumY)
      let rDenominator := F.jsSqrt (F.fmul
        (F.fsub (F.fmul n s.sumX2) (F.fmul s.sumX s.sumX))
        (F.fsub (F.fmul n s.sumY2) (F.fmul s.sumY s.sumY)))
      if rDenominator = F.fin 0 then ⟨m, c, F.fin 1⟩
      else
        let r := F.fdiv rNumerator rDenominator
        ⟨m, c, F.fmul r r⟩

end Part005

/-- A group row of the form schema consumed by `runAnalysis` in `part_004`:
`{name, mean, sd, samples}` with `samples` a (zod-coerced) integer `>= 1`;
the integer is modelled as a natural number since it drives the generation
loop. -/
structure GroupInput where
  name : String
  mean : F
  sd : F
  samples : ℕ

/-- A standard-curve row of the form schema: concentration/absorbance. -/
structure CurvePointInput where
  concentration : F
  absorbance : F

/-- The part of the validated form values that `runAnalysis` destructures:
`{ groups, standardCurve }` (the remaining form fields are not read by the
function). -/
structure AnalysisInput where
  groups : List GroupInput
  standardCurve : List CurvePointInput

/-- Per-group entry of `AnalysisResult` in `part_004`:
`{groupName, values}`. -/
structure GroupResult where
  groupName : String
  values : List F

/-- The `AnalysisResult` type of `part_004`: an optional regression (null
when no standard curve was used) plus the per-group value lists. -/
structure AnalysisResult where
  standardCurve : Option RegressionResult
  groupResults : List GroupResult

/-- A group-summary record of `statisticalTestInputSchema` (`part_001`):
`{name, mean, sd, samples}`, all numeric fields plain numbers. -/
structure StatGroup where
  name : String
  mean : F
  sd : F
  samples : F

/-- The `StatisticalTestInput` type (`part_001`): two group summaries plus
the requested test-kind string. -/
structure StatisticalTestInput where
  group1 : StatGroup
  group2 : StatGroup
  test : String

/-- The `StatisticalTestResult` type of `part_004`: `{pValue}`. -/
structure StatisticalTestResult where
  pValue : F

namespace Actions

/-- The `if (useStandardCurve && regression)` branch of the loop body:
with a curve, map each concentration through `m*conc + c`; otherwise the
generated concentrations are the final values. -/
def applyCurve (useStandardCurve : Bool) (regression : Option RegressionResult)
    (concentrationValues : List F) : List F :=
  match useStandardCurve, regression with
  | true, some reg =>
    concentrationValues.map (fun conc => F.fadd (F.fmul reg.m conc) reg.c)
  | _, _ => concentrationValues

/-- The `for (const group of groups)` loop of `runAnalysis` in `part_004`:
for each group, synthesize `samples` concentration values and apply the
curve transform.  The parameter `i` tracks the group's position and selects
its slice of the injected random stream family. -/
def runGroups (useStandardCurve : Bool) (regression : Option RegressionResult)
    (u : ℕ → ℕ → F × F) : ℕ → List GroupInput → List GroupResult
  | _, [] => []
  | i, group :: rest =>
    { groupName := group.name
      values := applyCurve useStandardCurve regression
        (AnalysisLib.generateNormalDistribution group.mean group.sd group.samples (u i)) }
      :: runGroups useStandardCurve regression u (i + 1) rest

/-- Body of `runAnalysis` in `part_004` before its catch-wrapper: optionally
fits the standard curve (at least 2 points, non-NaN slope/intercept, else a
thrown error modelled as `Except.error`), then runs the per-group loop.
Thrown errors are modelled as `Except.error` with the thrown message; the
ambient random source is the injected family `u` (one stream per group
position). -/
def runAnalysisBody (values : AnalysisInput) (useStandardCurve : Bool)
    (u : ℕ → ℕ → F × F) : Except String AnalysisResult :=
  match (if useStandardCurve then
      if values.standardCurve.length < 2 then
        .error "Standard curve requires at least 2 points."
      else
        let points := values.standardCurve.map (fun p => (p.concentration, p.absorbance))
        let regression := AnalysisLib.calculateLinearRegression points
        if regression.m = F.nan ∨ regression.c = F.nan then
          .error "Could not calculate standard curve. Please check your data points."
        else .ok (some regression)
    else .ok none : Except String (Option RegressionResult)) with
  | .error e => .error e
  | .ok regression =>
    .ok { standardCurve := regression
          groupResults := runGroups useStandardCurve regression u 0 values.groups }

/-- `runAnalysis` of `part_004`: the body wrapped in the catch clause that
rethrows any error with the message prefix `Analysis failed: `. -/
def runAnalysis (values : AnalysisInput) (useStandardCurve : Bool)
    (u : ℕ → ℕ → F × F) : Except String AnalysisResult :=
  match runAnalysisBody values useStandardCurve u with
  | .ok r => .ok r
  | .error e => .error ("Analysis failed: " ++ e)

/-- `performStatisticalTest` of `part_004`: switches on the requested test
kind; the `t-test` case runs `studentsTTest`, and the `default` case
silently falls back to the same `studentsTTest` call (emitting only a
console warning, a side effect not modelled).  A NaN p-value becomes a
thrown error, modelled as `Except.error` with the catch clause's
`Statistical test failed: ` prefix. -/
def performStatisticalTest (values : StatisticalTestInput) :
    Except String StatisticalTestResult :=
  let pValue :=
    if values.test = "t-test" then
      AnalysisLib.studentsTTest
        ⟨values.group1.mean, values.group1.sd, values.group1.samples⟩
        ⟨values.group2.mean, values.group2.sd, values.group2.samples⟩
    else
      AnalysisLib.studentsTTest
        ⟨values.group1.mean, values.group1.sd, values.group1.samples⟩
        ⟨values.group2.mean, values.group2.sd, values.group2.samples⟩
  if pValue = F.nan then
    .error "Statistical test failed: Could not calculate p-value. Check input data."
  else .ok { pValue := pValue }

end Actions

namespace Page

/-- JavaScript `array.reduce((a, b) => a + b)` without an initial value, as
used by `calculateSD` in `part_002`: seeds with the first element.  The
empty case (a TypeError in JavaScript) is unreachable behind the
`n < 2` guard and is mapped to NaN. -/
def jsReduceAdd : List F → F
  | [] => F.nan
  | h :: t => t.foldl F.fadd h

/-- The `calculateSD` helper of `part_002`: `0` for fewer than 2 values,
otherwise the square root of the Bessel-corrected variance
`sum((b - mean)^2) / (n - 1)` (with `Math.pow(b - mean, 2)`). -/
def calculateSD (data : List F) : F :=
  if data.length < 2 then F.fin 0
  else
    let n : F := F.fin data.length
    let mean := F.fdiv (jsReduceAdd data) n
    let variance := F.fdiv
      (data.foldl (fun acc b => F.fadd acc (F.jsPow2 (F.fsub b mean))) (F.fin 0))
      (F.fsub n (F.fin 1))
    F.jsSqrt variance

/-- The concentration-recovery part of `forwardTestResults` in `part_002`:
inverts the curve per value (`(abs - c) / m`), then returns the recovered
mean (`reduce(+, 0) / length`) and the recovered standard deviation
(`calculateSD`).  The absorbance-side statistics and the per-sample table of
the source are display-only and not modelled. -/
def forwardTest (m c : F) (values : List F) : F × F :=
  let calculatedConcentrations := values.map (fun ab => F.fdiv (F.fsub ab c) m)
  let concentrationMean := F.fdiv
    (calculatedConcentrations.foldl F.fadd (F.fin 0))
    (F.fin calculatedConcentrations.length)
  (concentrationMean, calculateSD calculatedConcentrations)

end Page

namespace AnalysisLib

theorem maxitSucc : (100 : ℕ) = 99 + 1 := by norm_num

@[simp] theorem fpminFloor_nan : fpminFloor F.nan = F.nan := by
  simp [fpminFloor]

/-- A NaN `x` contaminates every quantity of a `betacf` loop iteration. -/
theorem cfIter_nan (a b qab qap qam : F) (m : ℕ) (c d h : F) :
    cfIter F.nan a b qab qap qam m c d h = (F.nan, F.nan, F.nan, F.nan) := by
  simp [cfIter]

/-- With a NaN `x` and a NaN running `h`, the early-exit comparison is
always false and every iteration re-produces a NaN `h`, so the `betacf`
loop returns NaN however much fuel is left. -/
theorem betacfGo_nan (a b qab qap qam : F) :
    ∀ fuel m (c d : F),
      betacfGo F.nan a b qab qap qam m fuel c d F.nan = F.nan := by
  intro fuel
  induction fuel with
  | zero => intro m c d; rfl
  | succ k ih => intro m c d; simp [betacfGo, cfIter_nan, ih]

theorem betacf_nan (a b : F) : betacf F.nan a b = F.nan := by
  simp [betacf, betacfGo_nan]

/-- The `betacf` loop exits during its first iteration whenever that
iteration's `del` satisfies the `EPS` test; the result is that iteration's
`h`. -/
theorem betacfGo_succ (x a b qab qap qam : F) (m fuel : ℕ) (c d h : F) :
    betacfGo x a b qab qap qam m (fuel + 1) c d h =
      if F.flt (F.fabs (F.fsub (cfIter x a b qab qap qam m c d h).1 (F.fin 1))) EPS
      then (cfIter x a b qab qap qam m c d h).2.2.2
      else betacfGo x a b qab qap qam (m + 1) fuel
        (cfIter x a b qab qap qam m c d h).2.1
        (cfIter x a b qab qap qam m c d h).2.2.1
        (cfIter x a b qab qap qam m c d h).2.2.2 := rfl

theorem betacfGo_one (x a b qab qap qam c d h : F) {del c1 d1 h1 : F}
    (hit : cfIter x a b qab qap qam 1 c d h = (del, c1, d1, h1))
    (hbreak : F.flt (F.fabs (F.fsub del (F.fin 1))) EPS) :
    betacfGo x a b qab qap qam 1 100 c d h = h1 := by
  rw [maxitSucc, betacfGo_succ, hit]
  exact if_pos hbreak

theorem betacf_x0_a1 : betacf (F.fin 0) (F.fin 1) (F.fin (1/2)) = F.fin 1 := by
  have hinit : betacf (F.fin 0) (F.fin 1) (F.fin (1/2))
      = betacfGo (F.fin 0) (F.fin 1) (F.fin (1/2)) (F.fin (3/2)) (F.fin 2) (F.fin 0)
          1 100 (F.fin 1) (F.fin 1) (F.fin 1) := by
    norm_num [betacf, fpminFloor, FPMIN]
  rw [hinit]
  have hit : cfIter (F.fin 0) (F.fin 1) (F.fin (1/2)) (F.fin (3/2)) (F.fin 2) (F.fin 0)
      1 (F.fin 1) (F.fin 1) (F.fin 1) = (F.fin 1, F.fin 1, F.fin 1, F.fin 1) := by
    norm_num [cfIter, fpminFloor, FPMIN]
  exact betacfGo_one _ _ _ _ _ _ _ _ _ hit (by norm_num [EPS])

theorem betacf_x0_ahalf : betacf (F.fin 0) (F.fin (1/2)) (F.fin 1) = F.fin 1 := by
  have hinit : betacf (F.fin 0) (F.fin (1/2)) (F.fin 1)
      = betacfGo (F.fin 0) (F.fin (1/2)) (F.fin 1) (F.fin (3/2)) (F.fin (3/2))
          (F.fin (-(1/2))) 1 100 (F.fin 1) (F.fin 1) (F.fin 1) := by
    norm_num [betacf, fpminFloor, FPMIN]
  rw [hinit]
  have hit : cfIter (F.fin 0) (F.fin (1/2)) (F.fin 1) (F.fin (3/2)) (F.fin (3/2))
      (F.fin (-(1/2))) 1 (F.fin 1) (F.fin 1) (F.fin 1)
      = (F.fin 1, F.fin 1, F.fin 1, F.fin 1) := by
    norm_num [cfIter, fpminFloor, FPMIN]
  exact betacfGo_one _ _ _ _ _ _ _ _ _ hit (by norm_num [EPS])

theorem betacf_xthird : betacf (F.fin (1/3)) (F.fin (1/2)) (F.fin 1) = F.fin (3/2) := by
  have hinit : betacf (F.fin (1/3)) (F.fin (1/2)) (F.fin 1)
      = betacfGo (F.fin (1/3)) (F.fin (1/2)) (F.fin 1) (F.fin (3/2)) (F.fin (3/2))
          (F.fin (-(1/2))) 1 100 (F.fin 1) (F.fin (3/2)) (F.fin (3/2)) := by
    norm_num [betacf, fpminFloor, FPMIN, abs_of_pos]
  rw [hinit]
  have hit : cfIter (F.fin (1/3)) (F.fin (1/2)) (F.fin 1) (F.fin (3/2)) (F.fin (3/2))
      (F.fin (-(1/2))) 1 (F.fin 1) (F.fin (3/2)) (F.fin (3/2))
      = (F.fin 1, F.fin (6/7), F.fin (7/6), F.fin (3/2)) := by
    norm_num [cfIter, fpminFloor, FPMIN, abs_of_pos]
  exact betacfGo_one _ _ _ _ _ _ _ _ _ hit (by norm_num [EPS])

theorem betai_x0 : betai (F.fin 0) (F.fin 1) (F.fin (1/2)) = F.fin 0 := by
  norm_num [betai, F.fgt, betacf_x0_a1]

theorem betai_x1 : betai (F.fin 1) (F.fin 1) (F.fin (1/2)) = F.fin 1 := by
  norm_num [betai, F.fgt, betacf_x0_ahalf]

set_option maxRecDepth 4000 in
theorem betai_nan (a b : F) : betai F.nan a b = F.nan := by
  simp [betai, F.fgt, betacf_nan]

/-- The exact value produced by the t-test code at `t = 1`, `df = 2`. -/
noncomputable def pB : ℝ := 3 * Real.exp (Real.log (2/3) + 1/2 * Real.log (1/3))

theorem betai_x23 : betai (F.fin (2/3)) (F.fin 1) (F.fin (1/2)) = F.fin (1 - pB) := by
  norm_num [betai, F.fgt, betacf_xthird, pB]
  ring_nf

theorem tDistr_two_inf : tDistr (F.fin 2) F.inf = F.fin 1 := by
  norm_num [tDistr, F.fadd, F.fmul, F.fdiv, betai_x0]

theorem tDistr_two_zero : tDistr (F.fin 2) (F.fin 0) = F.fin 0 := by
  norm_num [tDistr, betai_x1]

theorem tDistr_two_one : tDistr (F.fin 2) (F.fin 1) = F.fin pB := by
  norm_num [tDistr, betai_x23]

theorem tDistr_two_nan : tDistr (F.fin 2) F.nan = F.nan := by
  simp [tDistr, betai_nan]

/-- Zero pooled SD with different means: the t-statistic divides a nonzero
difference by `+0`, giving an infinite `|t|`, and the code yields p = 1. -/
theorem ttest_sd0_diff :
    studentsTTest ⟨F.fin 0, F.fin 0, F.fin 2⟩ ⟨F.fin 1, F.fin 0, F.fin 2⟩ = F.fin 1 := by
  norm_num [studentsTTest, Real.sqrt_zero, Real.sqrt_one, tDistr_two_inf]

/-- Zero pooled SD with equal means: the t-statistic is `0/0 = NaN` and the
code yields NaN. -/
theorem ttest_sd0_same :
    studentsTTest ⟨F.fin 1, F.fin 0, F.fin 2⟩ ⟨F.fin 1, F.fin 0, F.fin 2⟩ = F.nan := by
  norm_num [studentsTTest, Real.sqrt_zero, Real.sqrt_one, tDistr_two_nan]

/-- Identical groups with positive SD: `t = 0` and the code yields p = 0. -/
theorem ttest_ident :
    studentsTTest ⟨F.fin 10, F.fin 1, F.fin 2⟩ ⟨F.fin 10, F.fin 1, F.fin 2⟩ = F.fin 0 := by
  norm_num [studentsTTest, Real.sqrt_one, tDistr_two_zero]

/-- Unit mean gap, unit SDs, `n = 2` on both sides: `t = 1`, `df = 2`, and
the code yields `p = pB = 2/sqrt 3 > 1`. -/
theorem ttest_gap1 :
    studentsTTest ⟨F.fin 11, F.fin 1, F.fin 2⟩ ⟨F.fin 10, F.fin 1, F.fin 2⟩ = F.fin pB := by
  norm_num [studentsTTest, Real.sqrt_one, tDistr_two_one]

theorem pB_pos : 0 < pB := by
  have := Real.exp_pos (Real.log (2/3) + 1/2 * Real.log (1/3))
  unfold pB
  linarith

theorem pB_gt_one : 1 < pB := by
  have hlt : Real.log (1/3) < 2 * Real.log (2/3) := by
    have h49 : Real.log (1/3) < Real.log (4/9) :=
      Real.log_lt_log (by norm_num) (by norm_num)
    have hsq : Real.log ((4:ℝ)/9) = 2 * Real.log (2/3) := by
      have : ((4:ℝ)/9) = (2/3)^2 := by norm_num
      rw [this, Real.log_pow]
      push_cast
      ring
    linarith [hsq ▸ h49]
  have hmono : Real.exp (Real.log (1/3)) <
      Real.exp (Real.log (2/3) + 1/2 * Real.log (1/3)) := by
    apply Real.exp_lt_exp.mpr
    linarith
  have hv : Real.exp (Real.log ((1:ℝ)/3)) = 1/3 := Real.exp_log (by norm_num)
  unfold pB
  nlinarith [hv ▸ hmono]

end AnalysisLib

/-- C1: the spec demands that a zero pooled standard deviation yield
`pValue = 1.0` for equal means and `0.0` for different means; the code
instead produces `1.0` for the *different*-means case (the t-statistic
overflows to infinity, and `tDistr` maps an infinite `|t|` to 1) and NaN
for the equal-means case (`0/0`).  This theorem evaluates `studentsTTest`
at the two failing inputs (sd = 0, n = 2 on both sides). -/
theorem c1_zero_pooled_sd_behavior :
    AnalysisLib.studentsTTest ⟨F.fin 0, F.fin 0, F.fin 2⟩ ⟨F.fin 1, F.fin 0, F.fin 2⟩
      = F.fin 1
    ∧ AnalysisLib.studentsTTest ⟨F.fin 1, F.fin 0, F.fin 2⟩ ⟨F.fin 1, F.fin 0, F.fin 2⟩
      = F.nan :=
  ⟨AnalysisLib.ttest_sd0_diff, AnalysisLib.ttest_sd0_same⟩

/-- C2: the spec demands a p-value close to 1 for identical groups; the
code returns exactly 0 (at `t = 0` its `tDistr` yields `1 - betai(1,a,b)
= 1 - 1 = 0`).  This theorem evaluates `studentsTTest` at the failing
input `mean = 10, sd = 1, n = 2` on both sides. -/
theorem c2_identical_groups_pvalue_zero :
    AnalysisLib.studentsTTest ⟨F.fin 10, F.fin 1, F.fin 2⟩ ⟨F.fin 10, F.fin 1, F.fin 2⟩
      = F.fin 0 :=
  AnalysisLib.ttest_ident

/-- C3: the spec demands that the p-value strictly decrease as the mean gap
widens (same sd and n); the code does the opposite.  With `sd = 1, n = 2`
on both sides, the gap-0 input yields `pValue = 0` while the gap-1 input
yields a strictly positive (indeed `> 1`) value, refuting the claimed
monotonicity at a concrete pair of inputs differing only in their means. -/
theorem c3_monotonicity_counterexample :
    AnalysisLib.studentsTTest ⟨F.fin 10, F.fin 1, F.fin 2⟩ ⟨F.fin 10, F.fin 1, F.fin 2⟩
      = F.fin 0
    ∧ ∃ p : ℝ,
      AnalysisLib.studentsTTest ⟨F.fin 11, F.fin 1, F.fin 2⟩ ⟨F.fin 10, F.fin 1, F.fin 2⟩
        = F.fin p ∧ 0 < p :=
  ⟨AnalysisLib.ttest_ident, AnalysisLib.pB, AnalysisLib.ttest_gap1, AnalysisLib.pB_pos⟩

/-- C4: the spec demands that an unsupported test kind be reported as a
failure; the code silently falls back to a t-test.  Requesting `"anova"`
returns a successful `pValue` (here exactly 1), identical to the result of
requesting `"t-test"` on the same groups — no unsupported-kind failure is
surfaced. -/
theorem c4_unsupported_kind_silent_fallback :
    Actions.performStatisticalTest
        ⟨⟨"Normal", F.fin 0, F.fin 0, F.fin 2⟩, ⟨"Diseased", F.fin 1, F.fin 0, F.fin 2⟩,
          "anova"⟩
      = .ok ⟨F.fin 1⟩
    ∧ Actions.performStatisticalTest
        ⟨⟨"Normal", F.fin 0, F.fin 0, F.fin 2⟩, ⟨"Diseased", F.fin 1, F.fin 0, F.fin 2⟩,
          "anova"⟩
      = Actions.performStatisticalTest
        ⟨⟨"Normal", F.fin 0, F.fin 0, F.fin 2⟩, ⟨"Diseased", F.fin 1, F.fin 0, F.fin 2⟩,
          "t-test"⟩ := by
  constructor
  · simp [Actions.performStatisticalTest, AnalysisLib.ttest_sd0_diff]
  · simp [Actions.performStatisticalTest]

/-- C5: the spec demands `pValue ∈ [0,1]` (or NaN); the code violates the
upper bound.  At means 11 and 10, `sd = 1`, `n = 2` on both sides
(`t = 1`, `df = 2`), `studentsTTest` returns
`3 * exp(log(2/3) + log(1/3)/2) = 2/sqrt 3 ≈ 1.1547 > 1`. -/
theorem c5_pvalue_exceeds_one :
    ∃ p : ℝ,
      AnalysisLib.studentsTTest ⟨F.fin 11, F.fin 1, F.fin 2⟩ ⟨F.fin 10, F.fin 1, F.fin 2⟩
        = F.fin p ∧ 1 < p :=
  ⟨AnalysisLib.pB, AnalysisLib.ttest_gap1, AnalysisLib.pB_gt_one⟩

theorem list_sum_map_add {α : Type} (l : List α) (f g : α → ℝ) :
    (l.map fun x => f x + g x).sum = (l.map f).sum + (l.map g).sum := by
  induction l with
  | nil => simp
  | cons a t ih => simp [ih]; ring

theorem list_sum_map_mul_left {α : Type} (l : List α) (c : ℝ) (f : α → ℝ) :
    (l.map fun x => c * f x).sum = c * (l.map f).sum := by
  induction l with
  | nil => simp
  | cons a t ih => simp [ih]; ring

theorem list_sum_map_const {α : Type} (l : List α) (c : ℝ) :
    (l.map fun _ => c).sum = l.length * c := by
  rw [List.map_const' l c]
  simp [List.sum_replicate, nsmul_eq_mul]

/-- Strict Cauchy-Schwarz for the least-squares denominator: a list of
reals containing two different values has `n * sum(x^2) - (sum x)^2 > 0`. -/
theorem lsq_denom_pos (xs : List ℝ) {x1 x2 : ℝ}
    (h1 : x1 ∈ xs) (h2 : x2 ∈ xs) (hne : x1 ≠ x2) :
    0 < (xs.length : ℝ) * (xs.map fun x => x * x).sum - xs.sum * xs.sum := by
  have hn : (0:ℝ) < xs.length := by
    have : 0 < xs.length := List.length_pos.mpr (List.ne_nil_of_mem h1)
    exact_mod_cast this
  set μ : ℝ := xs.sum / xs.length with hμ
  have key : (xs.map fun x => (x - μ) * (x - μ)).sum
      = (xs.map fun x => x * x).sum - 2 * μ * xs.sum + xs.length * (μ * μ) := by
    have hb : ∀ x : ℝ, (x - μ) * (x - μ) = x * x + ((-(2 * μ)) * x + μ * μ) := by
      intro x; ring
    calc (xs.map fun x => (x - μ) * (x - μ)).sum
        = (xs.map fun x => x * x + ((-(2 * μ)) * x + μ * μ)).sum := by
          simp only [hb]
      _ = (xs.map fun x => x * x).sum + ((xs.map fun x => (-(2 * μ)) * x).sum
            + (xs.map fun _ => μ * μ).sum) := by
          rw [list_sum_map_add xs (fun x => x * x) (fun x => (-(2 * μ)) * x + μ * μ),
            list_sum_map_add xs (fun x => (-(2 * μ)) * x) (fun _ => μ * μ)]
      _ = (xs.map fun x => x * x).sum - 2 * μ * ((xs.map fun x => x).sum)
            + xs.length * (μ * μ) := by
          rw [list_sum_map_mul_left xs (-(2 * μ)) (fun x => x), list_sum_map_const]
          ring
      _ = (xs.map fun x => x * x).sum - 2 * μ * xs.sum + xs.length * (μ * μ) := by
          rw [List.map_id']
  have hvpos : 0 < (xs.map fun x => (x - μ) * (x - μ)).sum := by
    have hex : ∃ x ∈ xs, x ≠ μ := by
      by_cases hxx : x1 = μ
      · exact ⟨x2, h2, fun h => hne (h ▸ hxx ▸ rfl)⟩
      · exact ⟨x1, h1, hxx⟩
    obtain ⟨x, hxmem, hxne⟩ := hex
    have hterm : 0 < (x - μ) * (x - μ) := mul_self_pos.mpr (sub_ne_zero.mpr hxne)
    have hle : (x - μ) * (x - μ) ≤ (xs.map fun x => (x - μ) * (x - μ)).sum := by
      apply List.single_le_sum
      · intro y hy
        obtain ⟨z, _, rfl⟩ := List.mem_map.mp hy
        exact mul_self_nonneg _
      · exact List.mem_map_of_mem _ hxmem
    linarith
  have h882 : (xs.length : ℝ) * ((xs.map fun x => (x - μ) * (x - μ)).sum)
      = (xs.length : ℝ) * (xs.map fun x => x * x).sum - xs.sum * xs.sum := by
    rw [key, hμ]
    field_simp
    ring
  nlinarith [mul_pos hn hvpos]

/-- The summation fold of the regression implementations, specialised to a
list of finite points: it computes the five exact real sums. -/
theorem regressionSums_map (l : List (ℝ × ℝ)) :
    regressionSums (l.map fun p => (F.fin p.1, F.fin p.2))
      = ⟨F.fin (l.map Prod.fst).sum, F.fin (l.map Prod.snd).sum,
         F.fin (l.map fun p => p.1 * p.2).sum,
         F.fin (l.map fun p => p.1 * p.1).sum,
         F.fin (l.map fun p => p.2 * p.2).sum⟩ := by
  suffices haux : ∀ (t : List (ℝ × ℝ)) (sx sy sxy sx2 sy2 : ℝ),
      (t.map fun p => (F.fin p.1, F.fin p.2)).foldl
        (fun s p =>
          { sumX := F.fadd s.sumX p.1
            sumY := F.fadd s.sumY p.2
            sumXY := F.fadd s.sumXY (F.fmul p.1 p.2)
            sumX2 := F.fadd s.sumX2 (F.fmul p.1 p.1)
            sumY2 := F.fadd s.sumY2 (F.fmul p.2 p.2) } : RegSums → F × F → RegSums)
        ⟨F.fin sx, F.fin sy, F.fin sxy, F.fin sx2, F.fin sy2⟩
      = ⟨F.fin (sx + (t.map Prod.fst).sum), F.fin (sy + (t.map Prod.snd).sum),
         F.fin (sxy + (t.map fun p => p.1 * p.2).sum),
         F.fin (sx2 + (t.map fun p => p.1 * p.1).sum),
         F.fin (sy2 + (t.map fun p => p.2 * p.2).sum)⟩ by
    have h := haux l 0 0 0 0 0
    simpa [regressionSums] using h
  intro t
  induction t with
  | nil => intro sx sy sxy sx2 sy2; simp
  | cons a s ih =>
    intro sx sy sxy sx2 sy2
    simp only [List.map_cons, List.foldl_cons, F.fadd_fin, F.fmul_fin]
    rw [ih]
    simp only [List.sum_cons, RegSums.mk.injEq, F.fin.injEq]
    refine ⟨by ring, by ring, by ring, by ring, by ring⟩

/-- Componentwise view of the summation fold: the `sumX` field only folds
the x coordinates. -/
theorem regressionSums_sumX (points : List (F × F)) :
    (regressionSums points).sumX
      = points.foldl (fun acc p => F.fadd acc p.1) (F.fin 0) := by
  suffices haux : ∀ (t : List (F × F)) (s : RegSums),
      (t.foldl (fun s p =>
          { sumX := F.fadd s.sumX p.1
            sumY := F.fadd s.sumY p.2
            sumXY := F.fadd s.sumXY (F.fmul p.1 p.2)
            sumX2 := F.fadd s.sumX2 (F.fmul p.1 p.1)
            sumY2 := F.fadd s.sumY2 (F.fmul p.2 p.2) } : RegSums → F × F → RegSums) s).sumX
      = t.foldl (fun acc p => F.fadd acc p.1) s.sumX by
    exact haux points _
  intro t
  induction t with
  | nil => intro s; rfl
  | cons a r ih => intro s; simp only [List.foldl_cons]; rw [ih]

/-- Componentwise view of the summation fold: the `sumX2` field only folds
the squared x coordinates. -/
theorem regressionSums_sumX2 (points : List (F × F)) :
    (regressionSums points).sumX2
      = points.foldl (fun acc p => F.fadd acc (F.fmul p.1 p.1)) (F.fin 0) := by
  suffices haux : ∀ (t : List (F × F)) (s : RegSums),
      (t.foldl (fun s p =>
          { sumX := F.fadd s.sumX p.1
            sumY := F.fadd s.sumY p.2
            sumXY := F.fadd s.sumXY (F.fmul p.1 p.2)
            sumX2 := F.fadd s.sumX2 (F.fmul p.1 p.1)
            sumY2 := F.fadd s.sumY2 (F.fmul p.2 p.2) } : RegSums → F × F → RegSums) s).sumX2
      = t.foldl (fun acc p => F.fadd acc (F.fmul p.1 p.1)) s.sumX2 by
    exact haux points _
  intro t
  induction t with
  | nil => intro s; rfl
  | cons a r ih => intro s; simp only [List.foldl_cons]; rw [ih]

theorem foldl_fadd_x_const {c : ℝ} : ∀ (pts : List (F × F)) (a : ℝ),
    (∀ p ∈ pts, p.1 = F.fin c) →
    pts.foldl (fun acc p => F.fadd acc p.1) (F.fin a)
      = F.fin (a + pts.length * c) := by
  intro pts
  induction pts with
  | nil => intro a _; simp
  | cons p t ih =>
    intro a hall
    have hp : p.1 = F.fin c := hall p (List.mem_cons_self p t)
    simp only [List.foldl_cons, hp, F.fadd_fin]
    rw [ih (a + c) (fun q hq => hall q (List.mem_cons_of_mem p hq))]
    simp only [F.fin.injEq, List.length_cons]
    push_cast
    ring

theorem foldl_fadd_xsq_const {c : ℝ} : ∀ (pts : List (F × F)) (a : ℝ),
    (∀ p ∈ pts, p.1 = F.fin c) →
    pts.foldl (fun acc p => F.fadd acc (F.fmul p.1 p.1)) (F.fin a)
      = F.fin (a + pts.length * (c * c)) := by
  intro pts
  induction pts with
  | nil => intro a _; simp
  | cons p t ih =>
    intro a hall
    have hp : p.1 = F.fin c := hall p (List.mem_cons_self p t)
    simp only [List.foldl_cons, hp, F.fmul_fin, F.fadd_fin]
    rw [ih (a + c * c) (fun q hq => hall q (List.mem_cons_of_mem p hq))]
    simp only [F.fin.injEq, List.length_cons]
    push_cast
    ring

/-- C7: fewer than 2 points, or all x coordinates equal to a common finite
value, make `calculateLinearRegression` of `src/lib/analysis.ts` return the
undefined sentinel `{m: NaN, c: NaN, rSquare: 0}`; the function is total,
so it never throws. -/
theorem c7_degenerate_regression_sentinel (points : List (F × F))
    (h : points.length < 2 ∨ ∃ c : ℝ, ∀ p ∈ points, p.1 = F.fin c) :
    AnalysisLib.calculateLinearRegression points = ⟨F.nan, F.nan, F.fin 0⟩ := by
  by_cases hl : points.length < 2
  · rw [AnalysisLib.calculateLinearRegression, if_pos hl]
  · rcases h with h | ⟨c, hc⟩
    · exact absurd h hl
    · have hdenom :
          F.fsub (F.fmul (F.fin points.length) (regressionSums points).sumX2)
            (F.fmul (regressionSums points).sumX (regressionSums points).sumX)
          = F.fin 0 := by
        rw [regressionSums_sumX, regressionSums_sumX2,
          foldl_fadd_x_const points 0 hc, foldl_fadd_xsq_const points 0 hc]
        simp only [F.fmul_fin, F.fsub_fin, F.fin.injEq]
        ring
      simp only [AnalysisLib.calculateLinearRegression, if_neg hl, hdenom, if_true, ite_true,
        eq_self_iff_true]

/-- Witness for C7 at the concrete input `[(5,1),(5,2)]` of the spec. -/
theorem c7_degenerate_regression_sentinel_witness :
    ((2:ℕ) < 2 ∨ ∃ c : ℝ, ∀ p ∈ [((F.fin 5 : F), (F.fin 1 : F)), (F.fin 5, F.fin 2)],
        p.1 = F.fin c)
    ∧ AnalysisLib.calculateLinearRegression [(F.fin 5, F.fin 1), (F.fin 5, F.fin 2)]
      = ⟨F.nan, F.nan, F.fin 0⟩ :=
  ⟨Or.inr ⟨5, by intro p hp; fin_cases hp <;> rfl⟩,
    c7_degenerate_regression_sentinel _
      (Or.inr ⟨5, by intro p hp; fin_cases hp <;> rfl⟩)⟩

/-- C6 counterexample: the two regression implementations do not apply one
uniform degeneracy policy.  On the empty list `analysis.ts` returns the
NaN sentinel while `part_005` returns zeros, so already the slopes differ
(even treating NaN as equal to NaN, i.e. plain equality of the modelled
values). -/
theorem c6_policies_differ_on_empty :
    (AnalysisLib.calculateLinearRegression []).m = F.nan
    ∧ (Part005.calculateLinearRegression []).m = F.fin 0
    ∧ F.nan ≠ F.fin 0 := by
  refine ⟨rfl, rfl, by simp⟩

/-- C6 amended: on every input accepted by both non-degenerate branches
(at least 2 points and a nonzero least-squares denominator) the two
implementations agree exactly (same `m`, `c` and `rSquare`); they differ
only in their degeneracy policies (NaN sentinel vs. zeros / horizontal
fallback). -/
theorem c6_amended_agree_nondegenerate (points : List (F × F))
    (h2 : 2 ≤ points.length) (hd : regDenominator points ≠ F.fin 0) :
    Part005.calculateLinearRegression points
      = AnalysisLib.calculateLinearRegression points := by
  have hd' :
      F.fsub (F.fmul (F.fin points.length) (regressionSums points).sumX2)
        (F.fmul (regressionSums points).sumX (regressionSums points).sumX)
      ≠ F.fin 0 := hd
  rw [Part005.calculateLinearRegression, AnalysisLib.calculateLinearRegression,
    if_neg (not_lt.mpr h2), if_neg (not_lt.mpr h2), if_neg hd', if_neg hd']

/-- Witness for C6's amended statement at the concrete two-point input
`[(0,0),(1,1)]`. -/
theorem c6_amended_agree_nondegenerate_witness :
    (2 ≤ ([((F.fin 0 : F), (F.fin 0 : F)), (F.fin 1, F.fin 1)] : List (F × F)).length
      ∧ regDenominator [(F.fin 0, F.fin 0), (F.fin 1, F.fin 1)] ≠ F.fin 0)
    ∧ Part005.calculateLinearRegression [(F.fin 0, F.fin 0), (F.fin 1, F.fin 1)]
      = AnalysisLib.calculateLinearRegression [(F.fin 0, F.fin 0), (F.fin 1, F.fin 1)] := by
  have hd : regDenominator [((F.fin 0 : F), (F.fin 0 : F)), (F.fin 1, F.fin 1)] ≠ F.fin 0 := by
    norm_num [regDenominator, regressionSums]
  exact ⟨⟨by norm_num, hd⟩,
    c6_amended_agree_nondegenerate _ (by norm_num) hd⟩

/-- With `sd = 0`, every Box-Muller draw collapses: for uniforms inside
`(0,1)` the generated `z0` is finite, so `z0 * 0 + mean = mean`. -/
theorem genND_sd0 (M : ℝ) (count : ℕ) (u : ℕ → F × F)
    (hu : ∀ i, ∃ a b : ℝ, u i = (F.fin a, F.fin b)
      ∧ 0 < a ∧ a < 1 ∧ 0 < b ∧ b < 1) :
    AnalysisLib.generateNormalDistribution (F.fin M) (F.fin 0) count u
      = List.replicate count (F.fin M) := by
  rw [AnalysisLib.generateNormalDistribution]
  apply List.eq_replicate_iff.mpr
  constructor
  · simp
  · intro v hv
    obtain ⟨i, _, rfl⟩ := List.mem_map.mp hv
    obtain ⟨a, b, hab, ha0, ha1, hb0, hb1⟩ := hu i
    have hsqrt_arg : (0:ℝ) ≤ -2 * Real.log a := by
      have := Real.log_neg ha0 ha1
      nlinarith
    rw [hab]
    simp only [F.jsLog_fin_pos a ha0, F.fmul_fin, F.jsPI, F.jsCos_fin,
      F.jsSqrt_fin_nonneg _ hsqrt_arg, F.fadd_fin, F.fin.injEq]
    ring

/-- A list containing two pairs with different first components has at
least two elements. -/
theorem two_le_length_of_fst_ne {l : List (ℝ × ℝ)} {p0 q0 : ℝ × ℝ}
    (hp0 : p0 ∈ l) (hq0 : q0 ∈ l) (hne : p0.1 ≠ q0.1) : 2 ≤ l.length := by
  rcases l with _ | ⟨a, _ | ⟨b, t⟩⟩
  · exact absurd hp0 (List.not_mem_nil p0)
  · rw [List.mem_singleton] at hp0 hq0
    exact absurd (hp0 ▸ hq0 ▸ rfl) hne
  · simp only [List.length_cons]
    omega

/-- Ordinary least squares on points lying exactly on `y = 2x + 1` (with
two different x values among them) recovers slope 2 and intercept 1
exactly. -/
theorem regression_collinear (l : List (ℝ × ℝ))
    (hline : ∀ p ∈ l, p.2 = 2 * p.1 + 1)
    {p0 q0 : ℝ × ℝ} (hp0 : p0 ∈ l) (hq0 : q0 ∈ l) (hne : p0.1 ≠ q0.1) :
    (AnalysisLib.calculateLinearRegression (l.map fun p => (F.fin p.1, F.fin p.2))).m
      = F.fin 2
    ∧ (AnalysisLib.calculateLinearRegression (l.map fun p => (F.fin p.1, F.fin p.2))).c
      = F.fin 1 := by
  have hlen2 : 2 ≤ l.length := two_le_length_of_fst_ne hp0 hq0 hne
  have hD : 0 < (l.length : ℝ) * (l.map fun p => p.1 * p.1).sum
      - (l.map Prod.fst).sum * (l.map Prod.fst).sum := by
    have h := lsq_denom_pos (l.map Prod.fst)
      (List.mem_map_of_mem Prod.fst hp0) (List.mem_map_of_mem Prod.fst hq0) hne
    rwa [List.length_map, List.map_map, Function.comp_def] at h
  have hSY : (l.map Prod.snd).sum = 2 * (l.map Prod.fst).sum + l.length := by
    have hcong : l.map Prod.snd = l.map (fun p => 2 * Prod.fst p + 1) :=
      List.map_congr_left hline
    rw [hcong, list_sum_map_add l (fun p => 2 * Prod.fst p) (fun _ => 1),
      list_sum_map_mul_left l 2 Prod.fst, list_sum_map_const l 1]
    ring
  have hSXY : (l.map fun p => p.1 * p.2).sum
      = 2 * (l.map fun p => p.1 * p.1).sum + (l.map Prod.fst).sum := by
    have hcong : (l.map fun p => p.1 * p.2)
        = l.map (fun p => 2 * (Prod.fst p * Prod.fst p) + Prod.fst p) := by
      apply List.map_congr_left
      intro p hp
      rw [hline p hp]
      ring
    rw [hcong, list_sum_map_add l (fun p => 2 * (Prod.fst p * Prod.fst p)) Prod.fst,
      list_sum_map_mul_left l 2 (fun p => Prod.fst p * Prod.fst p)]
  have hlenmap : (l.map fun p => ((F.fin p.1 : F), (F.fin p.2 : F))).length = l.length :=
    List.length_map _ _
  have hl2' : ¬ (l.map fun p => ((F.fin p.1 : F), (F.fin p.2 : F))).length < 2 := by
    rw [hlenmap]; omega
  have hsums := regressionSums_map l
  have hden :
      F.fsub
        (F.fmul (F.fin (l.map fun p => ((F.fin p.1 : F), (F.fin p.2 : F))).length)
          (regressionSums (l.map fun p => (F.fin p.1, F.fin p.2))).sumX2)
        (F.fmul (regressionSums (l.map fun p => (F.fin p.1, F.fin p.2))).sumX
          (regressionSums (l.map fun p => (F.fin p.1, F.fin p.2))).sumX)
      = F.fin ((l.length : ℝ) * (l.map fun p => p.1 * p.1).sum
          - (l.map Prod.fst).sum * (l.map Prod.fst).sum) := by
    rw [hsums, hlenmap]
    simp
  have hdne :
      F.fsub
        (F.fmul (F.fin (l.map fun p => ((F.fin p.1 : F), (F.fin p.2 : F))).length)
          (regressionSums (l.map fun p => (F.fin p.1, F.fin p.2))).sumX2)
        (F.fmul (regressionSums (l.map fun p => (F.fin p.1, F.fin p.2))).sumX
          (regressionSums (l.map fun p => (F.fin p.1, F.fin p.2))).sumX)
      ≠ F.fin 0 := by
    rw [hden]
    simp only [ne_eq, F.fin.injEq]
    exact hD.ne'
  have hnum :
      F.fsub
        (F.fmul (F.fin (l.map fun p => ((F.fin p.1 : F), (F.fin p.2 : F))).length)
          (regressionSums (l.map fun p => (F.fin p.1, F.fin p.2))).sumXY)
        (F.fmul (regressionSums (l.map fun p => (F.fin p.1, F.fin p.2))).sumX
          (regressionSums (l.map fun p => (F.fin p.1, F.fin p.2))).sumY)
      = F.fin (2 * ((l.length : ℝ) * (l.map fun p => p.1 * p.1).sum
          - (l.map Prod.fst).sum * (l.map Prod.fst).sum)) := by
    rw [hsums, hlenmap]
    simp only [F.fmul_fin, F.fsub_fin, F.fin.injEq]
    rw [hSY, hSXY]
    ring
  have hm :
      (AnalysisLib.calculateLinearRegression (l.map fun p => (F.fin p.1, F.fin p.2))).m
        = F.fin 2 := by
    rw [AnalysisLib.calculateLinearRegression, if_neg hl2']
    simp only [apply_ite RegressionResult.m, ite_self, if_neg hdne]
    rw [hnum, hden, F.fdiv_fin _ _ hD.ne']
    rw [F.fin.injEq]
    field_simp
  have hc :
      (AnalysisLib.calculateLinearRegression (l.map fun p => (F.fin p.1, F.fin p.2))).c
        = F.fin 1 := by
    rw [AnalysisLib.calculateLinearRegression, if_neg hl2']
    simp only [apply_ite RegressionResult.c, ite_self, if_neg hdne]
    rw [hnum, hden, F.fdiv_fin _ _ hD.ne']
    have h2D : (2 * ((l.length : ℝ) * (l.map fun p => p.1 * p.1).sum
        - (l.map Prod.fst).sum * (l.map Prod.fst).sum))
        / ((l.length : ℝ) * (l.map fun p => p.1 * p.1).sum
          - (l.map Prod.fst).sum * (l.map Prod.fst).sum) = 2 := by
      field_simp
    rw [h2D, hsums, hlenmap]
    have hn0 : (l.length : ℝ) ≠ 0 := by
      have : (0:ℝ) < l.length := by exact_mod_cast Nat.lt_of_lt_of_le (by norm_num) hlen2
      exact this.ne'
    simp only [F.fmul_fin, F.fsub_fin, F.fdiv_fin _ _ hn0, F.fin.injEq]
    rw [hSY]
    field_simp
  exact ⟨hm, hc⟩

theorem forwardTest_21 :
    Page.forwardTest (F.fin 2) (F.fin 1) (List.replicate 5 (F.fin 21))
      = (F.fin 10, F.fin 0) := by
  have h5 : List.replicate 5 (F.fin 21)
      = [F.fin 21, F.fin 21, F.fin 21, F.fin 21, F.fin 21] := rfl
  rw [h5]
  norm_num [Page.forwardTest, Page.calculateSD, Page.jsReduceAdd, F.jsPow2,
    Real.sqrt_zero]

/-- C8: with `useCurve = true`, calibration points lying exactly on
`y = 2x + 1` (two distinct x among them), and a group with mean 10, sd 0
and 5 samples, the pipeline — for every outcome of the random source —
synthesizes concentration values all equal to 10, produces transformed
response values all equal to 21, and the client-side forward test
(inverting `x = (y - c)/m`) recovers mean 10 with Bessel-corrected sample
standard deviation 0. -/
theorem c8_pipeline_roundtrip (l : List (ℝ × ℝ)) (u : ℕ → ℕ → F × F)
    (hline : ∀ p ∈ l, p.2 = 2 * p.1 + 1)
    (hx : ∃ p ∈ l, ∃ q ∈ l, p.1 ≠ q.1)
    (hu : ∀ g i, ∃ a b : ℝ, u g i = (F.fin a, F.fin b)
      ∧ 0 < a ∧ a < 1 ∧ 0 < b ∧ b < 1) :
    AnalysisLib.generateNormalDistribution (F.fin 10) (F.fin 0) 5 (u 0)
      = List.replicate 5 (F.fin 10)
    ∧ ∃ res : AnalysisResult,
        Actions.runAnalysis
          ⟨[⟨"G", F.fin 10, F.fin 0, 5⟩], l.map fun p => ⟨F.fin p.1, F.fin p.2⟩⟩ true u
          = .ok res
        ∧ res.groupResults = [⟨"G", List.replicate 5 (F.fin 21)⟩]
        ∧ ∃ reg : RegressionResult, res.standardCurve = some reg
            ∧ Page.forwardTest reg.m reg.c (List.replicate 5 (F.fin 21))
              = (F.fin 10, F.fin 0) := by
  obtain ⟨p0, hp0, q0, hq0, hne⟩ := hx
  have hgen : ∀ g, AnalysisLib.generateNormalDistribution (F.fin 10) (F.fin 0) 5 (u g)
      = List.replicate 5 (F.fin 10) := fun g => genND_sd0 10 5 (u g) (hu g)
  obtain ⟨hm, hc⟩ := regression_collinear l hline hp0 hq0 hne
  have hlen2 : 2 ≤ l.length := two_le_length_of_fst_ne hp0 hq0 hne
  have hmm : (l.map fun p => (⟨F.fin p.1, F.fin p.2⟩ : CurvePointInput)).map
      (fun p => (p.concentration, p.absorbance))
      = l.map fun p => ((F.fin p.1 : F), (F.fin p.2 : F)) := by
    rw [List.map_map]
    rfl
  have hbody : Actions.runAnalysisBody
      ⟨[⟨"G", F.fin 10, F.fin 0, 5⟩], l.map fun p => ⟨F.fin p.1, F.fin p.2⟩⟩ true u
      = .ok ⟨some (AnalysisLib.calculateLinearRegression
            (l.map fun p => (F.fin p.1, F.fin p.2))),
          [⟨"G", List.replicate 5 (F.fin 21)⟩]⟩ := by
    rw [Actions.runAnalysisBody]
    have hlen' : ¬ ((l.map fun p => (⟨F.fin p.1, F.fin p.2⟩ : CurvePointInput)).length < 2) := by
      rw [List.length_map]; omega
    simp only [if_true, if_neg hlen', hmm, hm, hc]
    have hnotnan : ¬ ((F.fin 2 : F) = F.nan ∨ (F.fin 1 : F) = F.nan) := by
      simp
    rw [if_neg hnotnan]
    simp only [Actions.runGroups, Actions.applyCurve, hgen 0, List.map_replicate,
      hm, hc, F.fmul_fin, F.fadd_fin]
    norm_num
  refine ⟨hgen 0,
    ⟨some (AnalysisLib.calculateLinearRegression
        (l.map fun p => (F.fin p.1, F.fin p.2))),
      [⟨"G", List.replicate 5 (F.fin 21)⟩]⟩, ?_, rfl,
    AnalysisLib.calculateLinearRegression (l.map fun p => (F.fin p.1, F.fin p.2)),
    rfl, ?_⟩
  · rw [Actions.runAnalysis, hbody]
  · rw [hm, hc]
    exact forwardTest_21

/-- Witness for C8 at the calibration points `(0,1), (1,3)` (on
`y = 2x + 1`) and the constant random stream `(1/2, 1/2)`. -/
theorem c8_pipeline_roundtrip_witness :
    AnalysisLib.generateNormalDistribution (F.fin 10) (F.fin 0) 5
        ((fun _ _ => (F.fin (1/2), F.fin (1/2)) : ℕ → ℕ → F × F) 0)
      = List.replicate 5 (F.fin 10)
    ∧ ∃ res : AnalysisResult,
        Actions.runAnalysis
          ⟨[⟨"G", F.fin 10, F.fin 0, 5⟩],
            ([((0:ℝ),(1:ℝ)), (1,3)] : List (ℝ × ℝ)).map fun p => ⟨F.fin p.1, F.fin p.2⟩⟩
          true (fun _ _ => (F.fin (1/2), F.fin (1/2)))
          = .ok res
        ∧ res.groupResults = [⟨"G", List.replicate 5 (F.fin 21)⟩]
        ∧ ∃ reg : RegressionResult, res.standardCurve = some reg
            ∧ Page.forwardTest reg.m reg.c (List.replicate 5 (F.fin 21))
              = (F.fin 10, F.fin 0) :=
  c8_pipeline_roundtrip [((0:ℝ),(1:ℝ)), (1,3)] (fun _ _ => (F.fin (1/2), F.fin (1/2)))
    (by intro p hp; fin_cases hp <;> norm_num)
    ⟨(0,1), by simp, (1,3), by simp, by norm_num⟩
    (fun g i => ⟨1/2, 1/2, rfl, by norm_num, by norm_num, by norm_num, by norm_num⟩)

theorem genND_length (mean sd : F) (count : ℕ) (u : ℕ → F × F) :
    (AnalysisLib.generateNormalDistribution mean sd count u).length = count := by
  simp [AnalysisLib.generateNormalDistribution]

theorem applyCurve_length (useCurve : Bool) (regression : Option RegressionResult)
    (vals : List F) :
    (Actions.applyCurve useCurve regression vals).length = vals.length := by
  cases useCurve <;> cases regression <;> simp [Actions.applyCurve]

theorem runGroups_names (useCurve : Bool) (regression : Option RegressionResult)
    (u : ℕ → ℕ → F × F) :
    ∀ (gs : List GroupInput) (i : ℕ),
      (Actions.runGroups useCurve regression u i gs).map GroupResult.groupName
        = gs.map GroupInput.name := by
  intro gs
  induction gs with
  | nil => intro i; rfl
  | cons g t ih => intro i; simp only [Actions.runGroups, List.map_cons, ih]

theorem runGroups_lengths (useCurve : Bool) (regression : Option RegressionResult)
    (u : ℕ → ℕ → F × F) :
    ∀ (gs : List GroupInput) (i : ℕ),
      (Actions.runGroups useCurve regression u i gs).map (fun g => g.values.length)
        = gs.map GroupInput.samples := by
  intro gs
  induction gs with
  | nil => intro i; rfl
  | cons g t ih =>
    intro i
    simp only [Actions.runGroups, List.map_cons, ih, applyCurve_length, genND_length]

/-- Structure of a successful `runAnalysisBody`: the result is assembled
from the regression outcome and the per-group loop, and the regression is
absent exactly when no standard curve was requested. -/
theorem runAnalysisBody_ok (inp : AnalysisInput) (useCurve : Bool)
    (u : ℕ → ℕ → F × F) (res : AnalysisResult)
    (h : Actions.runAnalysisBody inp useCurve u = .ok res) :
    ∃ regression,
      res = ⟨regression, Actions.runGroups useCurve regression u 0 inp.groups⟩
      ∧ (regression = none ↔ useCurve = false) := by
  unfold Actions.runAnalysisBody at h
  split at h
  · exact absurd h (by simp)
  · rename_i regression heq
    obtain rfl : res = ⟨regression, Actions.runGroups useCurve regression u 0 inp.groups⟩ :=
      (Except.ok.inj h).symm
    refine ⟨regression, rfl, ?_⟩
    cases useCurve with
    | false =>
      simp only [Bool.false_eq_true, if_false] at heq
      obtain rfl : (none : Option RegressionResult) = regression := Except.ok.inj heq
      simp
    | true =>
      simp only [if_true] at heq
      split at heq
      · exact absurd heq (by simp)
      · split at heq
        · exact absurd heq (by simp)
        · obtain rfl := Except.ok.inj heq
          simp

/-- C10: whenever `runAnalysis` returns successfully, the group results
list has exactly one entry per input group, in input order, each carrying
that group's name and as many values as the group's `samples` count; and
the returned `standardCurve` is null exactly when `useStandardCurve` is
false. -/
theorem c10_runAnalysis_structure (inp : AnalysisInput) (useCurve : Bool)
    (u : ℕ → ℕ → F × F) (res : AnalysisResult)
    (h : Actions.runAnalysis inp useCurve u = .ok res) :
    res.groupResults.map GroupResult.groupName = inp.groups.map GroupInput.name
    ∧ res.groupResults.map (fun g => g.values.length) = inp.groups.map GroupInput.samples
    ∧ (res.standardCurve = none ↔ useCurve = false) := by
  have hbody : Actions.runAnalysisBody inp useCurve u = .ok res := by
    unfold Actions.runAnalysis at h
    split at h
    · rename_i r heq
      exact heq.trans (congrArg Except.ok (Except.ok.inj h))
    · exact absurd h (by simp)
  obtain ⟨regression, rfl, hiff⟩ := runAnalysisBody_ok inp useCurve u res hbody
  exact ⟨runGroups_names useCurve regression u inp.groups 0,
    runGroups_lengths useCurve regression u inp.groups 0, hiff⟩

/-- Witness for C10: a one-group run without a standard curve. -/
theorem c10_runAnalysis_structure_witness :
    (AnalysisResult.mk none [⟨"G", []⟩]).groupResults.map GroupResult.groupName
      = ([⟨"G", F.fin 5, F.fin 0, 0⟩] : List GroupInput).map GroupInput.name
    ∧ (AnalysisResult.mk none [⟨"G", []⟩]).groupResults.map (fun g => g.values.length)
      = ([⟨"G", F.fin 5, F.fin 0, 0⟩] : List GroupInput).map GroupInput.samples
    ∧ ((AnalysisResult.mk none [⟨"G", []⟩]).standardCurve = none ↔ false = false) :=
  c10_runAnalysis_structure ⟨[⟨"G", F.fin 5, F.fin 0, 0⟩], []⟩ false
    (fun _ _ => (F.fin (1/2), F.fin (1/2))) ⟨none, [⟨"G", []⟩]⟩ rfl

/-- C9: whenever either group's `n` satisfies the JavaScript comparison
`n <= 1`, `studentsTTest` returns NaN — regardless of the means and
standard deviations.  The function is total, so no exception is raised. -/
theorem c9_insufficient_samples_nan (g1 g2 : AnalysisLib.GroupStats)
    (h : F.fle g1.n (F.fin 1) ∨ F.fle g2.n (F.fin 1)) :
    AnalysisLib.studentsTTest g1 g2 = F.nan := by
  rw [AnalysisLib.studentsTTest, if_pos h]

/-- Witness for C9 at the concrete input `n1 = 1`. -/
theorem c9_insufficient_samples_nan_witness :
    (F.fle (F.fin 1) (F.fin 1) ∨ F.fle (F.fin 7) (F.fin 1))
    ∧ AnalysisLib.studentsTTest ⟨F.fin 3, F.fin 1, F.fin 1⟩ ⟨F.fin 5, F.fin 2, F.fin 7⟩
      = F.nan :=
  ⟨Or.inl (by norm_num),
    c9_insufficient_samples_nan ⟨F.fin 3, F.fin 1, F.fin 1⟩ ⟨F.fin 5, F.fin 2, F.fin 7⟩
      (Or.inl (by norm_num))⟩

end
